import Mathlib

/-!
Verification of the Subspace backend's authentication subsystem
(repository `cliftonia/LCARS-BE-GO`), as a shallow embedding in Lean.

Conventions used throughout:
* Instants (`time.Time`, unix timestamps) are embedded as `Int`; Go's
  `a.After(b)` is `a > b` and `a.Before(b)` is `a < b`.
* Go maps keyed by strings are embedded as association lists
  `List (String × α)`; a Go map has at most one entry per key, and every
  operation below preserves the key set, so lookup of the first matching
  entry is faithful.
* Fallible Go functions returning `(T, error)` become `Except ε T`.
-/

namespace Subspace

/-! ## Domain model: refresh tokens (internal/domain, `RefreshToken`) -/

/-- `domain.RefreshToken`: the persisted refresh-token record. -/
structure RefreshToken where
  id : String
  userId : String
  token : String
  expiresAt : Int
  createdAt : Int
  revokedAt : Option Int
deriving DecidableEq, Repr

/-- `RefreshToken.IsExpired`: `time.Now().After(rt.ExpiresAt)`, with the
current instant passed explicitly. -/
def RefreshToken.IsExpired (rt : RefreshToken) (now : Int) : Bool :=
  decide (now > rt.expiresAt)

/-- `RefreshToken.IsRevoked`: `rt.RevokedAt != nil`. -/
def RefreshToken.IsRevoked (rt : RefreshToken) : Bool :=
  rt.revokedAt.isSome

/-- `RefreshToken.IsValid`: `!rt.IsExpired() && !rt.IsRevoked()`. -/
def RefreshToken.IsValid (rt : RefreshToken) (now : Int) : Bool :=
  !rt.IsExpired now && !rt.IsRevoked

/-- Repository-level errors (`domain.ErrRefreshTokenNotFound`,
`domain.ErrUserNotFound`, and a stand-in for any other failure). -/
inductive RepoError where
  | refreshTokenNotFound
  | userNotFound
  | other
deriving DecidableEq, Repr

/-! ## In-memory refresh-token store
(internal/repository/memory/refresh_token_repository.go). The Go map
`tokens map[string]*domain.RefreshToken` is the association list. -/

abbrev TokenStore := List (String × RefreshToken)

/-- Lookup of `r.tokens[tokenStr]`: the entry stored under the key (a Go map
holds at most one entry per key). -/
def getTok : TokenStore → String → Option RefreshToken
  | [], _ => none
  | p :: s, k => if p.1 = k then some p.2 else getTok s k

/-- `RefreshTokenRepository.GetByToken` (memory). -/
def MemRefresh.GetByToken (s : TokenStore) (k : String) :
    Except RepoError RefreshToken :=
  match getTok s k with
  | none => .error .refreshTokenNotFound
  | some t => .ok t

/-- The store after `token.RevokedAt = &now` on the record under `k`; every
other entry is untouched. -/
def revokeMap (s : TokenStore) (k : String) (now : Int) : TokenStore :=
  s.map fun p => if p.1 == k then (p.1, { p.2 with revokedAt := some now }) else p

/-- `RefreshTokenRepository.Revoke` (memory): missing token is
`ErrRefreshTokenNotFound`; otherwise the record's `RevokedAt` is set to the
current instant unconditionally. -/
def MemRefresh.Revoke (s : TokenStore) (k : String) (now : Int) :
    Except RepoError TokenStore :=
  match getTok s k with
  | none => .error .refreshTokenNotFound
  | some _ => .ok (revokeMap s k now)

/-- `RefreshTokenRepository.DeleteExpired` (memory): delete every record with
`token.ExpiresAt.Before(now)`. -/
def MemRefresh.DeleteExpired (s : TokenStore) (now : Int) : TokenStore :=
  s.filter fun p => !(decide (p.2.expiresAt < now))

/-! ## PostgreSQL refresh-token store
(internal/repository/postgres/refresh_token_repository.go). The table is a
list of rows; SQL `UPDATE`/`DELETE` act on every matching row. -/

/-- `UPDATE refresh_tokens SET revoked_at = $1 WHERE token = $2 AND
revoked_at IS NULL` applied to the rows. -/
def pgRevokeMap (rows : List RefreshToken) (k : String) (now : Int) :
    List RefreshToken :=
  rows.map fun r =>
    if r.token = k ∧ r.revokedAt = none then { r with revokedAt := some now } else r

/-- `RefreshTokenRepository.Revoke` (postgres): `ExecContext` of the update;
the row count is not inspected, so the call succeeds whether or not any row
matched. -/
def PgRefresh.Revoke (rows : List RefreshToken) (k : String) (now : Int) :
    Except RepoError (List RefreshToken) :=
  .ok (pgRevokeMap rows k now)

/-- `RefreshTokenRepository.DeleteExpired` (postgres): `DELETE FROM
refresh_tokens WHERE expires_at < $1`. -/
def PgRefresh.DeleteExpired (rows : List RefreshToken) (now : Int) :
    List RefreshToken :=
  rows.filter fun r => !(decide (r.expiresAt < now))

/-! ## Store-layer lemmas -/

theorem getTok_revokeMap (s : TokenStore) (k j : String) (now : Int) :
    getTok (revokeMap s k now) j =
      if j = k then (getTok s k).map (fun r => { r with revokedAt := some now })
      else getTok s j := by
  induction s with
  | nil => by_cases hj : j = k <;> simp [getTok, revokeMap, hj]
  | cons p s ih =>
    obtain ⟨key, rt⟩ := p
    by_cases hk : key = k <;> by_cases hj : key = j <;>
      first
        | (simp_all [getTok, revokeMap]; simp_all [eq_comm])
        | simp_all [getTok, revokeMap]

theorem revokeMap_keys (s : TokenStore) (k : String) (now : Int) :
    (revokeMap s k now).map Prod.fst = s.map Prod.fst := by
  unfold revokeMap
  rw [List.map_map]
  apply List.map_congr_left
  intro p _
  by_cases h : p.1 = k <;> simp [h]

theorem revoke_ok_eq (s : TokenStore) (k : String) (now : Int) (r : RefreshToken)
    (hr : getTok s k = some r) :
    MemRefresh.Revoke s k now = .ok (revokeMap s k now) := by
  unfold MemRefresh.Revoke
  rw [hr]

/-! ## Claim C2 -/

/-- Claim C2, counterexample: a record with `revokedAt` unset whose
`expiresAt` is exactly the current instant is still reported valid by
`RefreshToken.IsValid`, whereas the claim demands invalidity at
`t = expiresAt`. -/
theorem c2_counterexample :
    ({ id := "rt1", userId := "u1", token := "t1", expiresAt := 100,
       createdAt := 0, revokedAt := none } : RefreshToken).IsValid 100 = true ∧
    ¬ ((100 : Int) < 100) := by
  exact ⟨rfl, by decide⟩

/-- Claim C2 as amended: for every refresh-token record and instant `now`,
`IsValid` returns true iff `revokedAt` is unset and `now ≤ expiresAt` — the
expiry comparison is non-strict (`time.Now().After` is strict), so at
exactly `expiresAt` the record is still valid. -/
theorem c2_isValid_iff (rt : RefreshToken) (now : Int) :
    rt.IsValid now = true ↔ (rt.revokedAt = none ∧ now ≤ rt.expiresAt) := by
  cases h : rt.revokedAt with
  | none =>
    simp [RefreshToken.IsValid, RefreshToken.IsExpired, RefreshToken.IsRevoked, h]
  | some t =>
    simp [RefreshToken.IsValid, RefreshToken.IsExpired, RefreshToken.IsRevoked, h]

/-! ## Claim C8 -/

/-- The already-revoked record used by the C8 counterexample. -/
def rtC8 : RefreshToken :=
  { id := "i1", userId := "u1", token := "t1", expiresAt := 1000,
    createdAt := 0, revokedAt := some 5 }

/-- Claim C8, counterexample: revoking the already-revoked record `rtC8`
(revoked at instant 5) again at instant 9 reports success and overwrites the
stored revocation timestamp with 9, whereas the claim says a second revoke
leaves the original timestamp unchanged. -/
theorem c8_counterexample :
    MemRefresh.Revoke [("t1", rtC8)] "t1" 9 =
      .ok [("t1", { rtC8 with revokedAt := some 9 })] ∧
    rtC8.revokedAt = some 5 ∧ (9 : Int) ≠ 5 := by
  exact ⟨rfl, rfl, by decide⟩

/-- Claim C8 as amended: `Revoke` behaves per implementation as follows. The
in-memory store fails with `ErrRefreshTokenNotFound` when no record with the
token string exists, and otherwise reports success while setting the
revocation timestamp unconditionally (a second revoke overwrites it with the
new instant). The postgres store always reports success — also when no row
with the token string exists — and updates only rows whose `revoked_at` is
NULL, so there a second revoke leaves the original timestamp unchanged. -/
theorem c8_revoke_semantics :
    (∀ (s : TokenStore) (k : String) (now : Int), getTok s k = none →
        MemRefresh.Revoke s k now = .error .refreshTokenNotFound) ∧
    (∀ (s : TokenStore) (k : String) (now : Int) (r : RefreshToken),
        getTok s k = some r →
        MemRefresh.Revoke s k now = .ok (revokeMap s k now) ∧
        getTok (revokeMap s k now) k = some { r with revokedAt := some now }) ∧
    (∀ (rows : List RefreshToken) (k : String) (now : Int),
        PgRefresh.Revoke rows k now = .ok (pgRevokeMap rows k now)) ∧
    (∀ (rows : List RefreshToken) (k : String) (now : Int) (r : RefreshToken),
        r ∈ rows → r.revokedAt ≠ none → r ∈ pgRevokeMap rows k now) ∧
    (∀ (rows : List RefreshToken) (k : String) (now : Int),
        (∀ r ∈ rows, r.token ≠ k) → pgRevokeMap rows k now = rows) := by
  refine ⟨?_, ?_, ?_, ?_, ?_⟩
  · intro s k now h
    unfold MemRefresh.Revoke
    rw [h]
  · intro s k now r h
    refine ⟨revoke_ok_eq s k now r h, ?_⟩
    rw [getTok_revokeMap]
    simp [h]
  · intro rows k now
    rfl
  · intro rows k now r hmem hrev
    unfold pgRevokeMap
    refine List.mem_map.mpr ⟨r, hmem, ?_⟩
    rw [if_neg]
    intro hand
    exact hrev hand.2
  · intro rows k now h
    unfold pgRevokeMap
    have hid : ∀ r ∈ rows,
        (if r.token = k ∧ r.revokedAt = none
         then { r with revokedAt := some now } else r) = r := by
      intro r hr
      rw [if_neg]
      intro hand
      exact h r hr hand.1
    rw [List.map_congr_left hid]
    exact List.map_id rows

/-! ## Claim C9 -/

/-- Claim C9: for every store state and instant `now`, the expiry sweep keeps
a record iff it was stored and its `expiresAt` is not before `now` — i.e. it
removes exactly the records whose expiry has passed, regardless of their
revocation state, in both the in-memory and the postgres implementation. -/
theorem c9_deleteExpired_mem (s : TokenStore) (rows : List RefreshToken)
    (now : Int) (k : String) (rt : RefreshToken) :
    ((k, rt) ∈ MemRefresh.DeleteExpired s now ↔
      ((k, rt) ∈ s ∧ ¬ rt.expiresAt < now)) ∧
    (rt ∈ PgRefresh.DeleteExpired rows now ↔
      (rt ∈ rows ∧ ¬ rt.expiresAt < now)) := by
  constructor <;>
    simp [MemRefresh.DeleteExpired, PgRefresh.DeleteExpired, List.mem_filter]

/-! ## Claim C10 -/

/-- Claim C10: a successful in-memory `Revoke s tok now = .ok s'` only sets
`revokedAt := some now` on the record stored under `tok` (its other fields
are those of the old record `r`), leaves the record under every other key
unchanged, and preserves the list of stored token strings. -/
theorem c10_revoke_frame (s : TokenStore) (tok : String) (now : Int)
    (s' : TokenStore) (r : RefreshToken)
    (hok : MemRefresh.Revoke s tok now = .ok s')
    (hr : getTok s tok = some r) :
    getTok s' tok = some { r with revokedAt := some now } ∧
    (∀ k, k ≠ tok → getTok s' k = getTok s k) ∧
    s'.map Prod.fst = s.map Prod.fst := by
  have hs' : s' = revokeMap s tok now := by
    rw [revoke_ok_eq s tok now r hr] at hok
    exact (Except.ok.inj hok).symm
  subst hs'
  refine ⟨?_, ?_, revokeMap_keys s tok now⟩
  · rw [getTok_revokeMap]
    simp [hr]
  · intro k hk
    rw [getTok_revokeMap, if_neg hk]

/-- Records for the C10 witness store. -/
def rtW1 : RefreshToken :=
  { id := "i1", userId := "u1", token := "t1", expiresAt := 100,
    createdAt := 0, revokedAt := none }

/-- Second record for the C10 witness store. -/
def rtW2 : RefreshToken :=
  { id := "i2", userId := "u2", token := "t2", expiresAt := 200,
    createdAt := 0, revokedAt := none }

/-- Claim C10, witness: the frame theorem applied to a concrete two-record
store — revoking `"t1"` leaves the record under `"t2"` untouched. -/
theorem c10_revoke_frame_witness :
    getTok (revokeMap [("t1", rtW1), ("t2", rtW2)] "t1" 7) "t2" =
      getTok [("t1", rtW1), ("t2", rtW2)] "t2" := by
  have h := c10_revoke_frame [("t1", rtW1), ("t2", rtW2)] "t1" 7
    (revokeMap [("t1", rtW1), ("t2", rtW2)] "t1" 7) rtW1 rfl rfl
  exact h.2.1 "t2" (by decide)

/-! ## Domain model: users (internal/domain, `User`) -/

/-- `domain.User`; the `Password` field holds the bcrypt hash
(`db:"password_hash"`) and is empty for OAuth-only accounts. -/
structure User where
  id : String
  name : String
  email : String
  password : String
  avatarUrl : Option String
  createdAt : Int
  updatedAt : Int
deriving DecidableEq, Repr

/-! ## In-memory user store
(internal/repository/memory/user_repository.go). The Go map
`users map[string]*domain.User` keyed by user id is the association list. -/

abbrev UserStore := List (String × User)

/-- Lookup of `r.users[id]`. -/
def getUser : UserStore → String → Option User
  | [], _ => none
  | p :: s, k => if p.1 = k then some p.2 else getUser s k

/-- `users[id] = user`: overwrite the entry under the key if present,
otherwise add one. -/
def putUser (s : UserStore) (k : String) (u : User) : UserStore :=
  if (getUser s k).isSome
  then s.map fun p => if p.1 = k then (k, u) else p
  else s ++ [(k, u)]

/-- `UserRepository.GetByID` (memory). -/
def MemUser.GetByID (s : UserStore) (id : String) : Except RepoError User :=
  match getUser s id with
  | none => .error .userNotFound
  | some u => .ok u

/-- `UserRepository.GetByEmail` (memory): the first stored user with the
email (Go iterates the map in unspecified order; the list order stands in
for one such order). -/
def MemUser.GetByEmail (s : UserStore) (email : String) : Except RepoError User :=
  match s.find? (fun p => p.2.email == email) with
  | none => .error .userNotFound
  | some p => .ok p.2

/-- `UserRepository.Create` (memory): assign `newId` when the id is empty,
stamp both timestamps with the current instant, store under the id. There is
no email check of any kind, and no error path — the function ends in
`return nil`. -/
def MemUser.Create (s : UserStore) (user : User) (newId : String) (now : Int) :
    Except RepoError UserStore :=
  let uid := if user.id = "" then newId else user.id
  let u : User := { user with id := uid, createdAt := now, updatedAt := now }
  .ok (putUser s uid u)

/-! ## Input validation (internal/http/handlers, helpers for the auth
handler; constants from internal/constants). -/

def MaxNameLength : Nat := 255
def MaxEmailLength : Nat := 255

/-- Validation errors raised by the handlers (internal/domain error values),
paired with their exact message strings. -/
inductive DomainError where
  | userEmailRequired
  | emailTooLong
  | invalidEmail
  | userNameRequired
  | nameTooLong
deriving DecidableEq, Repr

/-- The `errors.New` message of each domain error. -/
def DomainError.message : DomainError → String
  | .userEmailRequired => "user email is required"
  | .emailTooLong => "email exceeds maximum length"
  | .invalidEmail => "invalid email address"
  | .userNameRequired => "user name is required"
  | .nameTooLong => "name exceeds maximum length"

def isAlphaChar (c : Char) : Bool :=
  ('a' ≤ c && c ≤ 'z') || ('A' ≤ c && c ≤ 'Z')

def isDigitChar (c : Char) : Bool :=
  '0' ≤ c && c ≤ '9'

/-- A character of the regex class `[a-zA-Z0-9._%+\-]` (the local part). -/
def isLocalChar (c : Char) : Bool :=
  isAlphaChar c || isDigitChar c || c == '.' || c == '_' || c == '%' ||
    c == '+' || c == '-'

/-- A character of the regex class `[a-zA-Z0-9.\-]` (the domain part). -/
def isDomainChar (c : Char) : Bool :=
  isAlphaChar c || isDigitChar c || c == '.' || c == '-'

/-- Whether `l` matches `[a-zA-Z0-9.\-]+\.[a-zA-Z]{2,}$`: some `.` at
position `i ≥ 1` splits it into a non-empty domain-char run and a trailing
alphabetic run of length ≥ 2. Matching a regex is the existence of such a
decomposition. -/
def matchDomainTail (l : List Char) : Bool :=
  (List.range l.length).any fun i =>
    decide (1 ≤ i) && l.getD i ' ' == '.' && (l.take i).all isDomainChar &&
      (l.drop (i + 1)).all isAlphaChar && decide (2 ≤ (l.drop (i + 1)).length)

/-- Whether the whole string matches
`^[a-zA-Z0-9._%+\-]+@[a-zA-Z0-9.\-]+\.[a-zA-Z]{2,}$` (`emailRegex` in
helpers): some `@` at position `i ≥ 1` splits it into a non-empty local-part
run and a tail matching `matchDomainTail`.  Neither character class contains
`@`, so quantifying over the split position is exact regex semantics. -/
def emailRegexMatch (l : List Char) : Bool :=
  (List.range l.length).any fun i =>
    decide (1 ≤ i) && l.getD i ' ' == '@' && (l.take i).all isLocalChar &&
      matchDomainTail (l.drop (i + 1))

/-- `validateEmail` (handlers): empty, over-long (`len` is the UTF-8 byte
count), or not matching the email regex. -/
def validateEmail (email : String) : Option DomainError :=
  if email = "" then some .userEmailRequired
  else if MaxEmailLength < email.utf8ByteSize then some .emailTooLong
  else if !(emailRegexMatch email.toList) then some .invalidEmail
  else none

/-- `validateUserName` (handlers): blank after trimming, or over-long. -/
def validateUserName (name : String) : Option DomainError :=
  if name.trim = "" then some .userNameRequired
  else if MaxNameLength < name.utf8ByteSize then some .nameTooLong
  else none

/-! ## HTTP auth handler (internal/http/handlers/auth_handler.go).
A handler reply is either `respondWithError(w, status, message)` or a JSON
payload with a status; the `ErrorResponse.Error` field is
`http.StatusText(status)`, a pure function of the status, so the pair
(status, message) captures the whole error reply. -/

/-- `AuthResponse`: the success payload of every auth endpoint. -/
structure AuthResponse where
  accessToken : String
  refreshToken : String
  user : User
deriving DecidableEq, Repr

/-- A handler's reply: an error reply or a success payload. -/
inductive HResp where
  | err (status : Nat) (message : String)
  | ok (status : Nat) (payload : AuthResponse)
deriving DecidableEq, Repr

/-- `LoginRequest`, already JSON-decoded. -/
structure LoginRequest where
  email : String
  password : String
deriving DecidableEq, Repr

/-- The collaborators `AuthHandler.Login` calls beyond the user store:
`auth.VerifyPassword` (bcrypt — external to the repository, abstracted as a
predicate on (stored hash, candidate)) and `generateTokenPair`
(JWT signing plus the random refresh-token source, abstracted as a fallible
pair-producing call keyed by user id and email). -/
structure LoginEnv where
  verifyPassword : String → String → Bool
  tokenPair : String → String → Except Unit (String × String)

/-- `AuthHandler.Login`, from the decoded request on: validate the email,
require a password, fetch the user by email (absent user and wrong password
both reply 401 `"invalid email or password"`), verify the password, mint the
pair, reply 200. -/
def Login (env : LoginEnv) (users : UserStore) (req : LoginRequest) : HResp :=
  match validateEmail req.email with
  | some e => .err 400 e.message
  | none =>
    if req.password = "" then .err 400 "password is required"
    else
      match MemUser.GetByEmail users req.email with
      | .error _ => .err 401 "invalid email or password"
      | .ok user =>
        if env.verifyPassword user.password req.password then
          match env.tokenPair user.id user.email with
          | .error _ => .err 500 "Failed to generate tokens"
          | .ok (a, r) =>
            .ok 200 { accessToken := a, refreshToken := r, user := user }
        else .err 401 "invalid email or password"

/-- `RegisterRequest`, already JSON-decoded. -/
structure RegisterRequest where
  name : String
  email : String
  password : String
deriving DecidableEq, Repr

/-- The collaborators `AuthHandler.Register` calls beyond the user store:
`auth.HashPassword` (bcrypt), `generateTokenPair`, the fresh UUID for the
new user, and the current instant. -/
structure RegisterEnv where
  hashPassword : String → Except Unit String
  tokenPair : String → String → Except Unit (String × String)
  newUserId : String
  now : Int

/-- `AuthHandler.Register`, from the decoded request on: validate name,
email and password length (UTF-8 bytes, `len(req.Password) < 8`), reject an
already-registered email with 409 (`GetByEmail` succeeding is the only
uniqueness guard — the store's `Create` has none), hash, create, mint,
reply 201.  Returns the reply and the resulting user store. -/
def Register (env : RegisterEnv) (users : UserStore) (req : RegisterRequest) :
    HResp × UserStore :=
  match validateUserName req.name with
  | some e => (.err 400 e.message, users)
  | none =>
  match validateEmail req.email with
  | some e => (.err 400 e.message, users)
  | none =>
  if req.password.utf8ByteSize < 8
  then (.err 400 "password must be at least 8 characters", users)
  else
    match MemUser.GetByEmail users req.email with
    | .ok _ => (.err 409 "email already registered", users)
    | .error _ =>
      match env.hashPassword req.password with
      | .error _ => (.err 500 "Failed to process registration", users)
      | .ok hashed =>
        let user : User :=
          { id := env.newUserId, name := req.name, email := req.email,
            password := hashed, avatarUrl := none,
            createdAt := env.now, updatedAt := env.now }
        match MemUser.Create users user env.newUserId env.now with
        | .error _ => (.err 500 "Failed to create user", users)
        | .ok users' =>
          match env.tokenPair user.id user.email with
          | .error _ => (.err 500 "Failed to generate tokens", users')
          | .ok (a, r) =>
            (.ok 201 { accessToken := a, refreshToken := r, user := user },
              users')

/-! ## OAuth sign-in (auth_handler.go, `AppleSignIn` / `GoogleSignIn`),
modelled from the point where the external verifier has succeeded. -/

/-- `AppleSignInRequest`; the `FullName` JSON map is represented by its two
string entries (`nil` map = both `none`). -/
structure AppleSignInRequest where
  userId : String
  identityToken : String
  authorizationCode : String
  email : String
  givenName : Option String
  familyName : Option String
deriving DecidableEq, Repr

/-- The claims of `auth.AppleIdentityToken` the handler and the verifier
use. -/
structure AppleIdentityToken where
  iss : String
  aud : String
  exp : Int
  sub : String
  email : String
deriving DecidableEq, Repr

/-- `GoogleSignInRequest`. -/
structure GoogleSignInRequest where
  userId : String
  idToken : String
  accessToken : String
  email : String
  fullName : String
deriving DecidableEq, Repr

/-- The fields of `auth.GoogleTokenInfo` the handler uses. -/
structure GoogleTokenInfo where
  sub : String
  email : String
  emailVerified : String
  name : String
deriving DecidableEq, Repr

/-- The name built by `getOrCreateAppleUser` from the `fullName` map: the
non-empty given/family parts joined by a space, defaulting to the email. -/
def appleUserName (email : String) (given family : Option String) : String :=
  let parts :=
    (match given with
     | some g => if g ≠ "" then [g] else []
     | none => []) ++
    (match family with
     | some f => if f ≠ "" then [f] else []
     | none => [])
  match parts with
  | [] => email
  | [a] => a
  | a :: b :: _ => a ++ " " ++ b

/-- `AuthHandler.getOrCreateAppleUser`: find the user by email, else create
one with no password hash. -/
def getOrCreateAppleUser (users : UserStore) (email : String)
    (given family : Option String) (newId : String) (now : Int) :
    Except RepoError (User × UserStore) :=
  match MemUser.GetByEmail users email with
  | .ok u => .ok (u, users)
  | .error _ =>
    let user : User :=
      { id := newId, name := appleUserName email given family, email := email,
        password := "", avatarUrl := none, createdAt := now, updatedAt := now }
    match MemUser.Create users user newId now with
    | .error e => .error e
    | .ok users' => .ok (user, users')

/-- `AuthHandler.AppleSignIn` after `VerifyIdentityToken` succeeded with
`claims`: the client-supplied email is used as is, and the verified claim
only when the client field is empty — `email := req.Email; if email == ""
{ email = claims.Email }`. -/
def AppleSignInVerified (users : UserStore) (req : AppleSignInRequest)
    (claims : AppleIdentityToken) (newId : String) (now : Int) :
    Except RepoError (User × UserStore) :=
  let email := if req.email = "" then claims.email else req.email
  getOrCreateAppleUser users email req.givenName req.familyName newId now

/-- `AuthHandler.getOrCreateGoogleUser`. -/
def getOrCreateGoogleUser (users : UserStore) (email fullName : String)
    (newId : String) (now : Int) : Except RepoError (User × UserStore) :=
  match MemUser.GetByEmail users email with
  | .ok u => .ok (u, users)
  | .error _ =>
    let user : User :=
      { id := newId, name := if fullName = "" then email else fullName,
        email := email, password := "", avatarUrl := none,
        createdAt := now, updatedAt := now }
    match MemUser.Create users user newId now with
    | .error e => .error e
    | .ok users' => .ok (user, users')

/-- `AuthHandler.GoogleSignIn` after `VerifyIDToken` succeeded with
`tokenInfo`: the verified email is always used (`email :=
tokenInfo.Email`); the client value only backs up the display name. -/
def GoogleSignInVerified (users : UserStore) (req : GoogleSignInRequest)
    (tokenInfo : GoogleTokenInfo) (newId : String) (now : Int) :
    Except RepoError (User × UserStore) :=
  let email := tokenInfo.email
  let fullName :=
    if tokenInfo.name = "" ∧ req.fullName ≠ "" then req.fullName
    else tokenInfo.name
  getOrCreateGoogleUser users email fullName newId now

/-! ## Claim C3 -/

theorem getByEmail_email (s : UserStore) (e : String) (u : User)
    (h : MemUser.GetByEmail s e = .ok u) : u.email = e := by
  unfold MemUser.GetByEmail at h
  cases hf : s.find? (fun p => p.2.email == e) with
  | none => rw [hf] at h; cases h
  | some p =>
    rw [hf] at h
    cases h
    simpa [beq_iff_eq] using List.find?_some hf

theorem getOrCreateAppleUser_email (users : UserStore) (email : String)
    (given family : Option String) (newId : String) (now : Int) :
    (getOrCreateAppleUser users email given family newId now).map
      (fun p => p.1.email) = .ok email := by
  unfold getOrCreateAppleUser
  cases h : MemUser.GetByEmail users email with
  | ok u => simp [Except.map, getByEmail_email _ _ _ h]
  | error e => simp [Except.map, MemUser.Create]

theorem getOrCreateGoogleUser_email (users : UserStore) (email fn : String)
    (newId : String) (now : Int) :
    (getOrCreateGoogleUser users email fn newId now).map
      (fun p => p.1.email) = .ok email := by
  unfold getOrCreateGoogleUser
  cases h : MemUser.GetByEmail users email with
  | ok u => simp [Except.map, getByEmail_email _ _ _ h]
  | error e => simp [Except.map, MemUser.Create]

/-- The request of the C3 counterexample: the client supplies an email. -/
def appleReqC3 : AppleSignInRequest :=
  { userId := "apple-uid", identityToken := "jwt", authorizationCode := "",
    email := "client@example.com", givenName := none, familyName := none }

/-- The verified claims of the C3 counterexample: the identity token carries
a different, verified email. -/
def appleClaimsC3 : AppleIdentityToken :=
  { iss := "https://appleid.apple.com", aud := "com.subspace.app",
    exp := 1000, sub := "apple-sub", email := "verified@example.com" }

/-- Claim C3, counterexample: in the Apple path the verified email claim is
present (`verified@example.com`) yet the user is found/created with the
client-supplied `client@example.com` — the client value, not the verified
claim, takes precedence. -/
theorem c3_counterexample :
    appleClaimsC3.email = "verified@example.com" ∧
    appleReqC3.email = "client@example.com" ∧
    (AppleSignInVerified [] appleReqC3 appleClaimsC3 "id1" 10).map
      (fun p => p.1.email) = .ok "client@example.com" ∧
    "client@example.com" ≠ appleClaimsC3.email := by
  exact ⟨rfl, rfl, rfl, by decide⟩

/-- Claim C3 as amended: after a successful verification, the Google path
finds or creates the user with the verified email claim, ignoring the
client-supplied value; the Apple path uses the client-supplied email
whenever it is non-empty and falls back to the verified claim only when the
client field is empty. -/
theorem c3_resolved_email (users : UserStore) (req : AppleSignInRequest)
    (claims : AppleIdentityToken) (greq : GoogleSignInRequest)
    (tokenInfo : GoogleTokenInfo) (newId : String) (now : Int) :
    (AppleSignInVerified users req claims newId now).map (fun p => p.1.email)
      = .ok (if req.email = "" then claims.email else req.email) ∧
    (GoogleSignInVerified users greq tokenInfo newId now).map
      (fun p => p.1.email) = .ok tokenInfo.email := by
  constructor
  · unfold AppleSignInVerified
    exact getOrCreateAppleUser_email ..
  · unfold GoogleSignInVerified
    exact getOrCreateGoogleUser_email ..

/-! ## Claim C6 -/

/-- Claim C6: a login with a stored email but failing password check and a
login with an email no stored user has produce the same reply — HTTP 401
with the message `"invalid email or password"` — so the two causes are
indistinguishable to the caller. -/
theorem c6_login_indistinguishable (env : LoginEnv) (users : UserStore)
    (req1 req2 : LoginRequest) (u : User)
    (h1e : validateEmail req1.email = none) (h1p : req1.password ≠ "")
    (h1u : MemUser.GetByEmail users req1.email = .ok u)
    (h1v : env.verifyPassword u.password req1.password = false)
    (h2e : validateEmail req2.email = none) (h2p : req2.password ≠ "")
    (h2u : MemUser.GetByEmail users req2.email = .error .userNotFound) :
    Login env users req1 = .err 401 "invalid email or password" ∧
    Login env users req1 = Login env users req2 := by
  have e1 : Login env users req1 = .err 401 "invalid email or password" := by
    simp [Login, h1e, h1p, h1u, h1v]
  have e2 : Login env users req2 = .err 401 "invalid email or password" := by
    simp [Login, h2e, h2p, h2u]
  exact ⟨e1, e1.trans e2.symm⟩

/-- The C6 witness environment: bcrypt verification that rejects every
candidate. -/
def envC6 : LoginEnv :=
  { verifyPassword := fun _ _ => false,
    tokenPair := fun _ _ => .ok ("a", "r") }

/-- The stored user of the C6 witness. -/
def userC6 : User :=
  { id := "u1", name := "John", email := "john@example.com",
    password := "hash", avatarUrl := none, createdAt := 0, updatedAt := 0 }

/-- Claim C6, witness: with one stored user, a wrong-password login for the
stored email and a login for an unknown email produce identical replies. -/
theorem c6_login_indistinguishable_witness :
    Login envC6 [("u1", userC6)]
        { email := "john@example.com", password := "wrong-pw" } =
      Login envC6 [("u1", userC6)]
        { email := "jane@example.com", password := "any-pw" } := by
  have h := c6_login_indistinguishable envC6 [("u1", userC6)]
    { email := "john@example.com", password := "wrong-pw" }
    { email := "jane@example.com", password := "any-pw" } userC6
    (by decide) (by decide) rfl rfl (by decide) (by decide) rfl
  exact h.2

/-! ## Claim C7 -/

/-- First stored user of the C7 counterexample. -/
def userC7a : User :=
  { id := "1", name := "A", email := "dup@example.com", password := "h1",
    avatarUrl := none, createdAt := 0, updatedAt := 0 }

/-- Second user of the C7 counterexample: a different id, the same email. -/
def userC7b : User :=
  { id := "2", name := "B", email := "dup@example.com", password := "h2",
    avatarUrl := none, createdAt := 0, updatedAt := 0 }

/-- Claim C7, counterexample: the in-memory store's `Create`, called with an
email already stored for a different user, succeeds — no error at all, let
alone a distinguishable uniqueness error — and the resulting state holds two
users with the same email. -/
theorem c7_counterexample :
    MemUser.Create [("1", userC7a)] userC7b "2" 50 =
      .ok [("1", userC7a),
        ("2", { userC7b with createdAt := 50, updatedAt := 50 })] ∧
    userC7a.email = userC7b.email ∧ userC7a.id ≠ userC7b.id := by
  exact ⟨rfl, rfl, by decide⟩

/-- Claim C7 as amended: the in-memory user store itself enforces no email
uniqueness — `Create` always succeeds, so a state with two users sharing an
email is reachable through the store alone.  At registration, uniqueness is
enforced one layer up: the handler's `GetByEmail` pre-check replies 409
`"email already registered"` whenever a stored user already has the
email. -/
theorem c7_no_store_uniqueness :
    (∀ (users : UserStore) (user : User) (newId : String) (now : Int),
        ∃ users', MemUser.Create users user newId now = .ok users') ∧
    (∀ (env : RegisterEnv) (users : UserStore) (req : RegisterRequest)
        (u : User),
        validateUserName req.name = none → validateEmail req.email = none →
        8 ≤ req.password.utf8ByteSize →
        MemUser.GetByEmail users req.email = .ok u →
        Register env users req = (.err 409 "email already registered", users))
    := by
  constructor
  · intro users user newId now
    exact ⟨_, rfl⟩
  · intro env users req u hn he hp hu
    have hp' : ¬ req.password.utf8ByteSize < 8 := by omega
    simp [Register, hn, he, hp', hu]

/-! ## Access-token codec (internal/auth, `JWTManager` with
github.com/golang-jwt/jwt/v5).  A token signed with `SigningMethodHS256`
is its claim set plus the signing key and algorithm; `ValidateToken`'s
`ParseWithClaims` verifies the HMAC method and the signature, then the v5
validator checks the registered claims: `exp` passes iff the current
instant is strictly before it, `nbf` passes iff the current instant is not
before it (both populated by `GenerateToken`).  All claim failures are
joined, and the caller inspects `errors.Is(err, jwt.ErrTokenExpired)`
first, so an expired token maps to `ErrExpiredToken` even when another
claim check also failed, and every other failure maps to
`ErrInvalidToken`. -/

/-- The signing algorithm of a token: HS256 is the HMAC family the manager
accepts; RS256 stands for any non-HMAC method. -/
inductive JwtAlg where
  | hs256
  | rs256
deriving DecidableEq, Repr

def JwtAlg.isHMAC : JwtAlg → Bool
  | .hs256 => true
  | .rs256 => false

/-- `auth.Claims`: the custom claims plus the registered claims
`GenerateToken` sets. -/
structure Claims where
  userId : String
  email : String
  expiresAt : Int
  issuedAt : Int
  notBefore : Int
deriving DecidableEq, Repr

/-- A signed, self-contained token: claims, algorithm, and the key that
signed it (signature verification against key `k` succeeds iff the token
was signed with `k`). -/
structure SignedJwt where
  alg : JwtAlg
  signedWith : String
  claims : Claims
deriving DecidableEq, Repr

/-- `auth.JWTManager`. -/
structure JWTManager where
  secretKey : String
  tokenDuration : Int
deriving DecidableEq, Repr

/-- `JWTManager.GenerateToken`: claims with `ExpiresAt = now + duration`,
`IssuedAt = now`, `NotBefore = now`, signed HS256 with the manager's
key. -/
def JWTManager.GenerateToken (m : JWTManager) (userId email : String)
    (now : Int) : SignedJwt :=
  { alg := .hs256, signedWith := m.secretKey,
    claims := { userId := userId, email := email,
                expiresAt := now + m.tokenDuration, issuedAt := now,
                notBefore := now } }

/-- `auth.ErrInvalidToken` / `auth.ErrExpiredToken`. -/
inductive JwtError where
  | invalidToken
  | expiredToken
deriving DecidableEq, Repr

/-- `JWTManager.ValidateToken` at the current instant `now`: non-HMAC
method or wrong key fail generically; an expired token (`now` at or past
`exp`) maps to `ErrExpiredToken` before any other claim failure is
considered; a token used before its `nbf` fails generically; otherwise the
claims are returned. -/
def JWTManager.ValidateToken (m : JWTManager) (tok : SignedJwt) (now : Int) :
    Except JwtError Claims :=
  if !tok.alg.isHMAC then .error .invalidToken
  else if tok.signedWith ≠ m.secretKey then .error .invalidToken
  else if tok.claims.expiresAt ≤ now then .error .expiredToken
  else if now < tok.claims.notBefore then .error .invalidToken
  else .ok tok.claims

/-! ## Claim C4 -/

/-- The manager of the C4 counterexample: 10-unit token lifetime. -/
def mC4 : JWTManager := { secretKey := "secret", tokenDuration := 10 }

/-- Claim C4, counterexample: a token issued at instant 5 (so `expiresAt =
15`) validated at instant 0 — strictly before `expiresAt` — does not
succeed: the not-before check of the validator rejects it with the generic
invalid-token error, contradicting "validation succeeds at every instant
strictly before the token's expiresAt". -/
theorem c4_counterexample :
    (mC4.GenerateToken "u1" "e@x.com" 5).claims.expiresAt = 15 ∧
    (0 : Int) < 15 ∧
    mC4.ValidateToken (mC4.GenerateToken "u1" "e@x.com" 5) 0 =
      .error .invalidToken := by
  exact ⟨rfl, by decide, rfl⟩

/-- Claim C4 as amended: for every token issued by the manager at instant
`g`, validation succeeds at every instant from `g` (the token's
`notBefore`) up to but excluding `expiresAt = g + tokenDuration`, and fails
with the distinguished `ErrExpiredToken` — not the generic error — at every
instant at or after `expiresAt`, including exactly `expiresAt`; at instants
strictly before issuance it fails with the generic `ErrInvalidToken`
(not-before check). -/
theorem c4_validate_window (m : JWTManager) (userId email : String)
    (g t : Int) :
    (m.GenerateToken userId email g).claims.expiresAt = g + m.tokenDuration ∧
    (g ≤ t → t < g + m.tokenDuration →
      m.ValidateToken (m.GenerateToken userId email g) t =
        .ok (m.GenerateToken userId email g).claims) ∧
    (g + m.tokenDuration ≤ t →
      m.ValidateToken (m.GenerateToken userId email g) t =
        .error .expiredToken) ∧
    (t < g → t < g + m.tokenDuration →
      m.ValidateToken (m.GenerateToken userId email g) t =
        .error .invalidToken) := by
  refine ⟨rfl, ?_, ?_, ?_⟩
  · intro h1 h2
    have hd : ¬ (g + m.tokenDuration ≤ t) := by omega
    have hn : ¬ (t < g) := by omega
    simp [JWTManager.ValidateToken, JWTManager.GenerateToken, JwtAlg.isHMAC,
      hd, hn]
  · intro h
    simp [JWTManager.ValidateToken, JWTManager.GenerateToken, JwtAlg.isHMAC, h]
  · intro h1 h2
    have hd : ¬ (g + m.tokenDuration ≤ t) := by omega
    simp [JWTManager.ValidateToken, JWTManager.GenerateToken, JwtAlg.isHMAC,
      hd, h1]

/-! ## Apple identity-token claim checks (internal/auth/apple.go,
`AppleAuthVerifier.VerifyIdentityToken`).  After the signature has been
verified against a cached key, the explicit checks run in source order:
issuer, audience, expiry.  (The jwt-v5 claim validator is inert here: the
`Exp`/`Iss`/`Aud` fields of `AppleIdentityToken` shadow the embedded
`RegisteredClaims` JSON tags at a shallower depth, so the registered claims
stay unset and the library skips its own exp check.) -/

/-- `appleIssuer`. -/
def appleIssuer : String := "https://appleid.apple.com"

/-- The failures of the post-signature claim checks. -/
inductive AppleVerifyError where
  | invalidIssuer
  | invalidAudience
  | expired
deriving DecidableEq, Repr

/-- The claim checks of `VerifyIdentityToken`, for a token whose signature
already verified: issuer first, then audience, then `time.Now().Unix() >
claims.Exp`. -/
def VerifyAppleClaims (claims : AppleIdentityToken) (clientID : String)
    (nowUnix : Int) : Except AppleVerifyError AppleIdentityToken :=
  if claims.iss ≠ appleIssuer then .error .invalidIssuer
  else if claims.aud ≠ clientID then .error .invalidAudience
  else if nowUnix > claims.exp then .error .expired
  else .ok claims

/-! ## Claim C5 -/

/-- The claims of the C5 counterexample: correct issuer and audience,
`exp` equal to the current unix instant. -/
def appleClaimsC5 : AppleIdentityToken :=
  { iss := "https://appleid.apple.com", aud := "com.subspace.app",
    exp := 100, sub := "s", email := "e@x.com" }

/-- Claim C5, counterexample: at `now = 100` the expiry `exp = 100` is not
in the future, yet the verifier accepts the token instead of failing with
the expired error — the expiry check is strict (`now > exp`), so the claim
fails at the boundary. -/
theorem c5_counterexample :
    appleClaimsC5.iss = appleIssuer ∧
    appleClaimsC5.aud = "com.subspace.app" ∧
    ¬ (100 : Int) < appleClaimsC5.exp ∧
    VerifyAppleClaims appleClaimsC5 "com.subspace.app" 100 =
      .ok appleClaimsC5 := by
  exact ⟨rfl, rfl, by decide, rfl⟩

/-- Claim C5 as amended: the checks run in the order issuer, audience,
expiry — a wrong issuer fails with the invalid-issuer error regardless of
audience and expiry, a correct issuer with wrong audience fails with the
invalid-audience error regardless of expiry, and with both correct the
token fails with the expired error iff its `exp` is strictly in the past
(`now > exp`); at `now = exp` it is accepted. -/
theorem c5_claim_check_order (claims : AppleIdentityToken)
    (clientID : String) (now : Int) :
    (claims.iss ≠ appleIssuer →
      VerifyAppleClaims claims clientID now = .error .invalidIssuer) ∧
    (claims.iss = appleIssuer → claims.aud ≠ clientID →
      VerifyAppleClaims claims clientID now = .error .invalidAudience) ∧
    (claims.iss = appleIssuer → claims.aud = clientID → claims.exp < now →
      VerifyAppleClaims claims clientID now = .error .expired) ∧
    (claims.iss = appleIssuer → claims.aud = clientID → now ≤ claims.exp →
      VerifyAppleClaims claims clientID now = .ok claims) := by
  refine ⟨?_, ?_, ?_, ?_⟩
  · intro h
    simp [VerifyAppleClaims, h]
  · intro h1 h2
    simp [VerifyAppleClaims, h1, h2]
  · intro h1 h2 h3
    have : now > claims.exp := h3
    simp [VerifyAppleClaims, h1, h2, this]
  · intro h1 h2 h3
    have : ¬ now > claims.exp := by omega
    simp [VerifyAppleClaims, h1, h2, this]

/-! ## Claim C1: the refresh pipeline (auth_handler.go, `Refresh`).
The handler is written against the repository interfaces and the token
generators; they are an explicit environment here, so the theorem covers
every store/collaborator behaviour. -/

/-- What `AuthHandler.Refresh` calls: `refreshTokenRepo.GetByToken`,
`userRepo.GetByID`, `refreshTokenRepo.Revoke`, `generateTokenPair`, and the
current instant. -/
structure RefreshEnv where
  getByToken : String → Except RepoError RefreshToken
  getUserById : String → Except RepoError User
  revoke : String → Except RepoError Unit
  tokenPair : String → String → Except Unit (String × String)
  now : Int

/-- `AuthHandler.Refresh`, from the decoded request on: empty token 400;
lookup (`ErrRefreshTokenNotFound` maps to 401 `"invalid refresh token"`,
any other store failure to 500); invalid records are reported expired
before revoked; user lookup failure 404; revoke failure 500; then a fresh
pair is minted and returned with the user. -/
def Refresh (env : RefreshEnv) (refreshToken : String) : HResp :=
  if refreshToken = "" then .err 400 "refresh token is required"
  else
    match env.getByToken refreshToken with
    | .error e =>
      if e = .refreshTokenNotFound then .err 401 "invalid refresh token"
      else .err 500 "Failed to verify refresh token"
    | .ok storedToken =>
      if !storedToken.IsValid env.now then
        if storedToken.IsExpired env.now then
          .err 401 "refresh token has expired"
        else if storedToken.IsRevoked then
          .err 401 "refresh token has been revoked"
        else .err 401 "invalid refresh token"
      else
        match env.getUserById storedToken.userId with
        | .error _ => .err 404 "User not found"
        | .ok user =>
          match env.revoke refreshToken with
          | .error _ => .err 500 "Failed to revoke old token"
          | .ok _ =>
            match env.tokenPair user.id user.email with
            | .error _ => .err 500 "Failed to generate tokens"
            | .ok (a, r) =>
              .ok 200 { accessToken := a, refreshToken := r, user := user }

/-- Claim C1: for every environment and non-empty presented token string,
the refresh handler follows the pipeline — unknown token 401
`"invalid refresh token"`; invalid record checked expiry first (expired 401
`"refresh token has expired"`, unexpired-but-revoked 401
`"refresh token has been revoked"`); valid record with a missing owner 404
`"User not found"`; and on the happy path the presented token is revoked
and the freshly minted access/refresh pair is returned with the user. -/
theorem c1_refresh_pipeline (env : RefreshEnv) (tok : String)
    (htok : tok ≠ "") :
    (env.getByToken tok = .error .refreshTokenNotFound →
      Refresh env tok = .err 401 "invalid refresh token") ∧
    (∀ st, env.getByToken tok = .ok st → st.IsExpired env.now = true →
      Refresh env tok = .err 401 "refresh token has expired") ∧
    (∀ st, env.getByToken tok = .ok st → st.IsExpired env.now = false →
      st.IsRevoked = true →
      Refresh env tok = .err 401 "refresh token has been revoked") ∧
    (∀ st, env.getByToken tok = .ok st → st.IsValid env.now = true →
      (∀ u, env.getUserById st.userId ≠ .ok u) →
      Refresh env tok = .err 404 "User not found") ∧
    (∀ st u a r, env.getByToken tok = .ok st → st.IsValid env.now = true →
      env.getUserById st.userId = .ok u → env.revoke tok = .ok () →
      env.tokenPair u.id u.email = .ok (a, r) →
      Refresh env tok =
        .ok 200 { accessToken := a, refreshToken := r, user := u }) := by
  refine ⟨?_, ?_, ?_, ?_, ?_⟩
  · intro h
    simp [Refresh, htok, h]
  · intro st hst hexp
    have hval : st.IsValid env.now = false := by
      simp [RefreshToken.IsValid, hexp]
    simp [Refresh, htok, hst, hval, hexp]
  · intro st hst hexp hrev
    have hval : st.IsValid env.now = false := by
      simp [RefreshToken.IsValid, hexp, hrev]
    simp [Refresh, htok, hst, hval, hexp, hrev]
  · intro st hst hval huser
    cases hu : env.getUserById st.userId with
    | error e => simp [Refresh, htok, hst, hval, hu]
    | ok u => exact absurd hu (huser u)
  · intro st u a r hst hval hu hrev hpair
    simp [Refresh, htok, hst, hval, hu, hrev, hpair]

/-- The C1 witness environment: an empty store, so every lookup misses. -/
def envC1 : RefreshEnv :=
  { getByToken := fun _ => .error .refreshTokenNotFound,
    getUserById := fun _ => .error .userNotFound,
    revoke := fun _ => .ok (),
    tokenPair := fun _ _ => .ok ("a", "r"),
    now := 0 }

/-- Claim C1, witness: against the empty store, presenting the unknown
token string `"tok"` replies 401 `"invalid refresh token"`. -/
theorem c1_refresh_pipeline_witness :
    Refresh envC1 "tok" = .err 401 "invalid refresh token" :=
  (c1_refresh_pipeline envC1 "tok" (by decide)).1 rfl

end Subspace
